import Mathlib

/-!
Shallow embedding of the metronome-rs scheduler core (src/accent.rs and
src/metronome.rs) and proofs about it.

Modelling conventions:
* Rust `f32`/`f64` values (frequencies, volumes, BPM) are modelled as exact
  rationals `ℚ`; the arithmetic the scheduler performs on them is simple
  enough that the rational model captures the nominal computation.
* Rust `u32`/`u64` counters and millisecond durations are modelled as `ℕ`;
  the loop counters never reach `2^32` relevance in any claim, and every
  subtraction in the source is `saturating_sub`, which is `ℕ` subtraction.
* A Rust division or remainder by zero panics; where a claim is about that
  panic the operation is modelled by an `Option`-valued checked variant.
* The atomic `is_playing` flags and the `GLOBAL_METRONOME` registry are
  modelled as an explicit state record, with the operations `start`, `stop`
  and `stop_global_metronome` as functions on that state, performing the
  same sequence of writes as the source.
-/

namespace MetronomeRs

/-- Wave types available for metronome sounds (src/accent.rs `WaveType`). -/
inductive WaveType where
  | sine
  | square
  | sawtooth
  | triangle
deriving DecidableEq, Repr

/-- Configuration for accent beats (src/accent.rs `AccentConfig`).
Frequencies and volumes are `f32` in the source, modelled as `ℚ`;
durations are `u64` milliseconds, modelled as `ℕ`. -/
structure AccentConfig where
  accent_frequency : ℚ
  regular_frequency : ℚ
  accent_duration : ℕ
  regular_duration : ℕ
  accent_wave_type : WaveType
  regular_wave_type : WaveType
  subdivisions : ℕ
  subdivision_frequency : ℚ
  subdivision_duration : ℕ
  subdivision_wave_type : WaveType
  subdivision_volume : ℚ
deriving DecidableEq, Repr

namespace AccentConfig

/-- `impl Default for AccentConfig` (src/accent.rs). -/
def default : AccentConfig where
  accent_frequency := 880
  regular_frequency := 440
  accent_duration := 150
  regular_duration := 100
  accent_wave_type := .sine
  regular_wave_type := .sine
  subdivisions := 1
  subdivision_frequency := 523.25
  subdivision_duration := 80
  subdivision_wave_type := .sine
  subdivision_volume := 0.7

/-- `AccentConfig::subtle` (src/accent.rs). -/
def subtle : AccentConfig where
  accent_frequency := 660
  regular_frequency := 440
  accent_duration := 120
  regular_duration := 100
  accent_wave_type := .sine
  regular_wave_type := .sine
  subdivisions := 1
  subdivision_frequency := 523.25
  subdivision_duration := 80
  subdivision_wave_type := .sine
  subdivision_volume := 0.7

/-- `AccentConfig::strong` (src/accent.rs). -/
def strong : AccentConfig where
  accent_frequency := 1760
  regular_frequency := 440
  accent_duration := 200
  regular_duration := 80
  accent_wave_type := .sine
  regular_wave_type := .sine
  subdivisions := 1
  subdivision_frequency := 523.25
  subdivision_duration := 80
  subdivision_wave_type := .sine
  subdivision_volume := 0.7

/-- `AccentConfig::with_eighth_notes` (src/accent.rs). -/
def with_eighth_notes : AccentConfig where
  accent_frequency := 880
  regular_frequency := 440
  accent_duration := 150
  regular_duration := 100
  accent_wave_type := .sine
  regular_wave_type := .sine
  subdivisions := 2
  subdivision_frequency := 587.33
  subdivision_duration := 70
  subdivision_wave_type := .sine
  subdivision_volume := 0.65

/-- `AccentConfig::with_custom_subdivisions` (src/accent.rs). -/
def with_custom_subdivisions (subdivisions : ℕ) (subdivision_frequency : ℚ)
    (subdivision_volume : ℚ) : AccentConfig where
  accent_frequency := 880
  regular_frequency := 440
  accent_duration := 150
  regular_duration := 100
  accent_wave_type := .sine
  regular_wave_type := .sine
  subdivisions := subdivisions
  subdivision_frequency := subdivision_frequency
  subdivision_duration := 70
  subdivision_wave_type := .sine
  subdivision_volume := subdivision_volume

/-- `AccentConfig::set_subdivisions` (src/accent.rs): builder-style update,
no validation of the argument. -/
def set_subdivisions (cfg : AccentConfig) (subdivisions : ℕ) : AccentConfig :=
  { cfg with subdivisions := subdivisions }

end AccentConfig

/-! ## The per-tick decision of `Metronome::run_metronome` (src/metronome.rs) -/

/-- `self.beats_per_measure.is_some_and(|beats| beat_count % beats == 0 && subdivision_count == 0)`
(src/metronome.rs line 215). Faithful for `beats > 0`; the source panics
when `beats == 0` (u32 remainder by zero). -/
def is_accent (beats_per_measure : Option ℕ) (beat_count subdivision_count : ℕ) : Bool :=
  match beats_per_measure with
  | some beats => beat_count % beats == 0 && subdivision_count == 0
  | none => false

/-- `let is_main_beat = subdivision_count == 0` (src/metronome.rs line 218). -/
def is_main_beat (subdivision_count : ℕ) : Bool :=
  subdivision_count == 0

/-- Classification of one tick of the scheduling loop. -/
inductive TickKind where
  | accent
  | regular
  | subdivision
  | silent
deriving DecidableEq, Repr

/-- Which branch of the if/else chain at src/metronome.rs lines 221-252 a
tick takes: accent, regular main beat, subdivision click, or the silent
`continue` branch. -/
def tickKind (cfg : AccentConfig) (beats_per_measure : Option ℕ)
    (beat_count subdivision_count : ℕ) : TickKind :=
  if is_accent beats_per_measure beat_count subdivision_count then .accent
  else if is_main_beat subdivision_count then .regular
  else if 1 < cfg.subdivisions then .subdivision
  else .silent

/-- The `(frequency, duration, wave_type, volume)` tuple the loop renders
for one tick (src/metronome.rs lines 221-252); `none` is the silent branch
that renders no tone. -/
def tickSound (cfg : AccentConfig) (beats_per_measure : Option ℕ)
    (beat_count subdivision_count : ℕ) : Option (ℚ × ℕ × WaveType × ℚ) :=
  if is_accent beats_per_measure beat_count subdivision_count then
    some (cfg.accent_frequency, cfg.accent_duration, cfg.accent_wave_type, 1)
  else if is_main_beat subdivision_count then
    some (cfg.regular_frequency, cfg.regular_duration, cfg.regular_wave_type, 1)
  else if 1 < cfg.subdivisions then
    some (cfg.subdivision_frequency, cfg.subdivision_duration,
      cfg.subdivision_wave_type, cfg.subdivision_volume)
  else
    none

/-- The counter update performed after every tick (src/metronome.rs lines
267-271, and identically in the silent branch lines 247-250):
`subdivision_count = (subdivision_count + 1) % subdivisions;
if subdivision_count == 0 { beat_count += 1 }`.
State is the pair `(beat_count, subdivision_count)`. Faithful for
`subdivisions > 0`; the source panics when `subdivisions == 0` (see
`stepCountersChecked`). -/
def stepCounters (subdivisions : ℕ) (st : ℕ × ℕ) : ℕ × ℕ :=
  let sd := (st.2 + 1) % subdivisions
  (if sd = 0 then st.1 + 1 else st.1, sd)

/-- The counter state after `n` ticks of the loop; `run_metronome` starts
from `beat_count = 0`, `subdivision_count = 0` (src/metronome.rs 211-212). -/
def loopState (subdivisions : ℕ) (n : ℕ) : ℕ × ℕ :=
  (stepCounters subdivisions)^[n] (0, 0)

/-- The tick classification of the `n`-th tick of a loop run. -/
def kindTrace (cfg : AccentConfig) (beats_per_measure : Option ℕ) (n : ℕ) : TickKind :=
  tickKind cfg beats_per_measure (loopState cfg.subdivisions n).1
    (loopState cfg.subdivisions n).2

/-! ## Pacing arithmetic (src/metronome.rs lines 208-210 and 273-277) -/

/-- `let beat_duration_ms = (60.0 / self.bpm * 1000.0) as u64`
(src/metronome.rs line 209), with the `f64` arithmetic modelled exactly
over `ℚ` and the `as u64` cast as floor-to-ℕ. -/
def beat_duration_ms (bpm : ℚ) : ℕ :=
  (⌊60 / bpm * 1000⌋).toNat

/-- `let subdivision_duration_ms = beat_duration_ms / u64::from(self.accent_config.subdivisions)`
(src/metronome.rs line 210), integer division. Faithful for
`subdivisions > 0`; the source panics at zero (see
`subdivision_duration_ms_checked`). -/
def subdivision_duration_ms (bpm : ℚ) (subdivisions : ℕ) : ℕ :=
  beat_duration_ms bpm / subdivisions

/-- `let sleep_duration = subdivision_duration_ms.saturating_sub(duration)`
(src/metronome.rs line 274); `ℕ` subtraction is saturating. -/
def sleep_duration (subdivision_duration_ms duration : ℕ) : ℕ :=
  subdivision_duration_ms - duration

/-! ## Checked (panicking) variants of the divisions, for the
`subdivisions == 0` analysis. A Rust `u64`/`u32` division or remainder by
zero panics; `none` models the panic. -/

/-- `u64` division, `none` on the division-by-zero panic. -/
def checkedDiv (a b : ℕ) : Option ℕ :=
  if b = 0 then none else some (a / b)

/-- `u32` remainder, `none` on the remainder-by-zero panic. -/
def checkedMod (a b : ℕ) : Option ℕ :=
  if b = 0 then none else some (a % b)

/-- `beat_duration_ms / u64::from(subdivisions)` with the panic made
explicit. -/
def subdivision_duration_ms_checked (bpm : ℚ) (subdivisions : ℕ) : Option ℕ :=
  checkedDiv (beat_duration_ms bpm) subdivisions

/-- The counter update with the `% subdivisions` panic made explicit. -/
def stepCountersChecked (subdivisions : ℕ) (st : ℕ × ℕ) : Option (ℕ × ℕ) :=
  (checkedMod (st.2 + 1) subdivisions).map
    (fun sd => (if sd = 0 then st.1 + 1 else st.1, sd))

/-! ## The global registry and the running flags
(src/metronome.rs `GLOBAL_METRONOME`, `Metronome::start`, `Metronome::stop`,
`stop_global_metronome`, `get_global_metronome`, `is_playing`).

A `Metronome` handle carries its `identity` (the value of the shared
`id: Arc<AtomicU64>`; clones share it) and a `handle` tag distinguishing
separately allocated handles (clones) that refer to the same logical
metronome. The shared `is_playing: Arc<AtomicBool>` flags are keyed by
identity, since clones share the flag exactly when they share the id. -/

/-- A handle to a metronome: `id` is the identity value loaded from the
shared `id` atomic, `handle` distinguishes distinct clones. -/
structure MetronomeHandle where
  id : ℕ
  handle : ℕ
deriving DecidableEq, Repr

/-- The process-wide state: the `GLOBAL_METRONOME` registry and the
`is_playing` flag of every metronome identity. -/
structure GlobalState where
  registry : Option MetronomeHandle
  running : ℕ → Bool

namespace Metronome

/-- `Metronome::is_playing` (src/metronome.rs lines 153-155): loads the
shared flag. -/
def is_playing (s : GlobalState) (m : MetronomeHandle) : Bool :=
  s.running m.id

/-- `Metronome::start` (src/metronome.rs lines 166-188): under the lock,
`take` the current holder and store a clone of `self`; after releasing the
lock, store `false` into the previous holder's flag; then store `true` into
`self`'s flag (and spawn the loop thread, not modelled here). The clone
stored in the registry shares `self`'s id. -/
def start (m : MetronomeHandle) (s : GlobalState) : GlobalState :=
  let prev := s.registry
  let s1 : GlobalState := { s with registry := some m }
  let s2 : GlobalState :=
    match prev with
    | some p => { s1 with running := fun i => if i = p.id then false else s1.running i }
    | none => s1
  { s2 with running := fun i => if i = m.id then true else s2.running i }

/-- `Metronome::stop` (src/metronome.rs lines 191-204): store `false` into
`self`'s flag; then, if the registry holds a metronome whose loaded id
equals `self`'s loaded id, set the registry to `None`. -/
def stop (m : MetronomeHandle) (s : GlobalState) : GlobalState :=
  let s1 : GlobalState :=
    { s with running := fun i => if i = m.id then false else s.running i }
  match s1.registry with
  | some current => if current.id = m.id then { s1 with registry := none } else s1
  | none => s1

end Metronome

/-- `stop_global_metronome` (src/metronome.rs lines 287-296): `take` the
registry's holder (clearing the registry); if there was one, store `false`
into its flag. -/
def stop_global_metronome (s : GlobalState) : GlobalState :=
  match s.registry with
  | none => s
  | some m => { registry := none, running := fun i => if i = m.id then false else s.running i }

/-- `get_global_metronome` (src/metronome.rs lines 299-301). -/
def get_global_metronome (s : GlobalState) : Option MetronomeHandle :=
  s.registry

/-! ## The tick loop with render outcomes
(src/metronome.rs `Metronome::run_metronome`, lines 207-279).

The loop thread's view: `running` is the value the loop reads from the
shared flag (no other thread is modelled as writing it during the run),
`counters` is `(beat_count, subdivision_count)`. Each iteration consumes
one element of an oracle list giving the outcome of that iteration's
`play_beep_with_wave_type_and_volume` call (`true` = `Ok`, `false` =
`Err`); the element is unused on a silent tick, which renders nothing. -/

/-- The loop thread's state. -/
structure MachineState where
  running : Bool
  counters : ℕ × ℕ
deriving DecidableEq, Repr

/-- Why a finite run of the loop returned. -/
inductive ExitReason where
  /-- The `while self.is_playing.load(..)` condition read `false`. -/
  | flagCleared
  /-- The render call returned an error: the loop logs and `break`s
  (src/metronome.rs lines 255-265). -/
  | renderError
  /-- The oracle list ran out while the loop was still going. -/
  | fuelExhausted
deriving DecidableEq, Repr

/-- A finite run of `run_metronome`'s `while` loop: per iteration, check
the flag; decide the tick's sound; on a silent tick advance the counters
and `continue`; otherwise render (outcome from the oracle), `break` on
error, else advance the counters. Returns the loop state at exit and the
reason. The loop body performs no store to the `running` flag and no
registry access. -/
def runLoop (cfg : AccentConfig) (beats_per_measure : Option ℕ) :
    List Bool → MachineState → MachineState × ExitReason
  | [], ms =>
    if ms.running = false then (ms, .flagCleared) else (ms, .fuelExhausted)
  | ok :: rest, ms =>
    if ms.running = false then (ms, .flagCleared)
    else
      match tickSound cfg beats_per_measure ms.counters.1 ms.counters.2 with
      | none =>
        runLoop cfg beats_per_measure rest
          { ms with counters := stepCounters cfg.subdivisions ms.counters }
      | some _ =>
        if ok then
          runLoop cfg beats_per_measure rest
            { ms with counters := stepCounters cfg.subdivisions ms.counters }
        else (ms, .renderError)

/-! ## Sample global states used by concrete witnesses and counterexamples -/

/-- A state whose registry holds identity 5 (handle tag 0), all flags set. -/
def regFive : GlobalState :=
  { registry := some ⟨5, 0⟩, running := fun _ => true }

/-- A state whose registry holds identity 1 (handle tag 0), all flags set. -/
def regOne : GlobalState :=
  { registry := some ⟨1, 0⟩, running := fun _ => true }

/-- A state whose registry holds identity 3 (handle tag 0), all flags set. -/
def regThree : GlobalState :=
  { registry := some ⟨3, 0⟩, running := fun _ => true }

/-- A state whose registry holds identity 4 (handle tag 0), all flags set. -/
def regFour : GlobalState :=
  { registry := some ⟨4, 0⟩, running := fun _ => true }

/-! ## Helper lemmas -/

/-- Unfolding of `is_accent` into a proposition. -/
lemma is_accent_iff (beats_per_measure : Option ℕ) (beat_count subdivision_count : ℕ) :
    is_accent beats_per_measure beat_count subdivision_count = true ↔
      ∃ b, beats_per_measure = some b ∧ beat_count % b = 0 ∧ subdivision_count = 0 := by
  cases beats_per_measure with
  | none => simp [is_accent]
  | some b => simp [is_accent, and_assoc]

/-- Branch characterisation of `tickKind`. -/
lemma tickKind_cases (cfg : AccentConfig) (beats_per_measure : Option ℕ)
    (beat_count subdivision_count : ℕ) :
    (tickKind cfg beats_per_measure beat_count subdivision_count = .accent ↔
      is_accent beats_per_measure beat_count subdivision_count = true) ∧
    (tickKind cfg beats_per_measure beat_count subdivision_count = .regular ↔
      is_accent beats_per_measure beat_count subdivision_count = false ∧
        subdivision_count = 0) ∧
    (tickKind cfg beats_per_measure beat_count subdivision_count = .subdivision ↔
      is_accent beats_per_measure beat_count subdivision_count = false ∧
        subdivision_count ≠ 0 ∧ 1 < cfg.subdivisions) := by
  unfold tickKind is_main_beat
  by_cases hA : is_accent beats_per_measure beat_count subdivision_count = true <;>
    by_cases hM : subdivision_count = 0 <;>
      by_cases hS : 1 < cfg.subdivisions <;>
        simp [hA, hM, hS, Bool.not_eq_true] at * <;>
          simp [hA, hM, hS]

/-- One more iteration of the loop counters. -/
lemma loopState_succ (subdivisions n : ℕ) :
    loopState subdivisions (n + 1) = stepCounters subdivisions (loopState subdivisions n) := by
  unfold loopState
  rw [Function.iterate_succ_apply']

/-- Closed form of the counters when `subdivisions = 2`. -/
lemma loopState_two (n : ℕ) : loopState 2 n = (n / 2, n % 2) := by
  induction n with
  | zero => rfl
  | succ n ih =>
    rw [loopState_succ, ih]
    show ((if (n % 2 + 1) % 2 = 0 then n / 2 + 1 else n / 2, (n % 2 + 1) % 2) : ℕ × ℕ)
      = ((n + 1) / 2, (n + 1) % 2)
    have h2 : (n % 2 + 1) % 2 = (n + 1) % 2 := by omega
    rw [h2]
    rcases Nat.mod_two_eq_zero_or_one (n + 1) with h | h <;> rw [h] <;> simp <;> omega

/-- Closed form of the tick classification for `beats_per_measure = 3`,
`subdivisions = 2`. -/
lemma kindTrace_formula (cfg : AccentConfig) (hs : cfg.subdivisions = 2) (n : ℕ) :
    kindTrace cfg (some 3) n =
      if n % 2 = 0 then (if n / 2 % 3 = 0 then .accent else .regular)
      else .subdivision := by
  unfold kindTrace
  rw [hs, loopState_two]
  unfold tickKind is_accent is_main_beat
  rcases Nat.mod_two_eq_zero_or_one n with h | h <;>
    by_cases h3 : n / 2 % 3 = 0 <;>
      simp [h, h3, hs]

/-- The registry after `Metronome.start` always holds the new handle. -/
lemma start_registry (m : MetronomeHandle) (s : GlobalState) :
    (Metronome.start m s).registry = some m := by
  unfold Metronome.start
  rcases s.registry <;> rfl

/-- The flags after `Metronome.start`: the started id is set last; the
previous holder's id was cleared before that; others are untouched. -/
lemma start_running (m : MetronomeHandle) (s : GlobalState) (i : ℕ) :
    (Metronome.start m s).running i =
      if i = m.id then true
      else
        match s.registry with
        | some p => if i = p.id then false else s.running i
        | none => s.running i := by
  unfold Metronome.start
  rcases hreg : s.registry with _ | p <;> simp [hreg]

/-- The registry after `Metronome.stop`. -/
lemma stop_registry (m : MetronomeHandle) (s : GlobalState) :
    (Metronome.stop m s).registry =
      match s.registry with
      | some current => if current.id = m.id then none else some current
      | none => none := by
  unfold Metronome.stop
  rcases hreg : s.registry with _ | current
  · simp [hreg]
  · by_cases hid : current.id = m.id <;> simp [hreg, hid]

/-- The flags after `Metronome.stop`: only `m`'s id is cleared. -/
lemma stop_running (m : MetronomeHandle) (s : GlobalState) (i : ℕ) :
    (Metronome.stop m s).running i = if i = m.id then false else s.running i := by
  unfold Metronome.stop
  rcases hreg : s.registry with _ | current
  · simp [hreg]
  · by_cases hid : current.id = m.id <;> simp [hreg, hid]

/-- The registry after `stop_global_metronome` is always empty. -/
lemma stop_global_registry (s : GlobalState) :
    (stop_global_metronome s).registry = none := by
  unfold stop_global_metronome
  rcases hreg : s.registry with _ | m
  · simp [hreg]
  · simp [hreg]

/-- With an empty registry, `stop_global_metronome` returns the state
unchanged. -/
lemma stop_global_of_none (s : GlobalState) (h : s.registry = none) :
    stop_global_metronome s = s := by
  unfold stop_global_metronome
  rw [h]

/-- The flags after `stop_global_metronome`: only the taken holder's id is
cleared. -/
lemma stop_global_running (s : GlobalState) (i : ℕ) :
    (stop_global_metronome s).running i =
      match s.registry with
      | some m => if i = m.id then false else s.running i
      | none => s.running i := by
  unfold stop_global_metronome
  rcases hreg : s.registry with _ | m <;> simp [hreg]

/-- A nonzero subdivision index rules the accent branch out. -/
lemma is_accent_eq_false_of_ne (beats_per_measure : Option ℕ) (beat_count sd : ℕ)
    (h : sd ≠ 0) : is_accent beats_per_measure beat_count sd = false := by
  rcases beats_per_measure <;> simp [is_accent, h]

/-- `tickSound` renders exactly the tuple selected by `tickKind`. -/
lemma tickSound_eq_of_kind (cfg : AccentConfig) (beats_per_measure : Option ℕ)
    (beat_count sd : ℕ) :
    tickSound cfg beats_per_measure beat_count sd =
      match tickKind cfg beats_per_measure beat_count sd with
      | .accent => some (cfg.accent_frequency, cfg.accent_duration, cfg.accent_wave_type, 1)
      | .regular => some (cfg.regular_frequency, cfg.regular_duration, cfg.regular_wave_type, 1)
      | .subdivision => some (cfg.subdivision_frequency, cfg.subdivision_duration,
          cfg.subdivision_wave_type, cfg.subdivision_volume)
      | .silent => none := by
  unfold tickKind tickSound
  by_cases hA : is_accent beats_per_measure beat_count sd = true <;>
    by_cases hM : is_main_beat sd = true <;>
      by_cases hS : 1 < cfg.subdivisions <;>
        simp [hA, hM, hS]

/-! ## The claims -/

/-- C9: `AccentConfig::strong()` returns a configuration whose publicly
readable fields are exactly the documented literals, in particular
`accent_frequency = 1760.0`, `regular_frequency = 440.0`,
`accent_duration = 200`, `regular_duration = 80`; reading the fields back
after construction yields those same values. -/
theorem C9_strong_round_trip :
    AccentConfig.strong.accent_frequency = 1760 ∧
    AccentConfig.strong.regular_frequency = 440 ∧
    AccentConfig.strong.accent_duration = 200 ∧
    AccentConfig.strong.regular_duration = 80 ∧
    AccentConfig.strong.accent_wave_type = .sine ∧
    AccentConfig.strong.regular_wave_type = .sine ∧
    AccentConfig.strong.subdivisions = 1 ∧
    AccentConfig.strong.subdivision_frequency = 523.25 ∧
    AccentConfig.strong.subdivision_duration = 80 ∧
    AccentConfig.strong.subdivision_wave_type = .sine ∧
    AccentConfig.strong.subdivision_volume = 0.7 :=
  ⟨rfl, rfl, rfl, rfl, rfl, rfl, rfl, rfl, rfl, rfl, rfl⟩

/-- C10: `set_subdivisions` and `with_custom_subdivisions` accept
`subdivisions = 0` without validation; with such a config the loop's
`beat_duration_ms / subdivisions` and `(subdivision_count + 1) % subdivisions`
divide by zero (modelled as `none`, a panic), and under `subdivisions ≥ 1`
both checked computations succeed, so the panic is unreachable. -/
theorem C10_subdivisions_zero_panics :
    (∀ cfg : AccentConfig, (cfg.set_subdivisions 0).subdivisions = 0) ∧
    (∀ f v : ℚ, (AccentConfig.with_custom_subdivisions 0 f v).subdivisions = 0) ∧
    (∀ bpm : ℚ, subdivision_duration_ms_checked bpm 0 = none) ∧
    (∀ st : ℕ × ℕ, stepCountersChecked 0 st = none) ∧
    (∀ s : ℕ, 1 ≤ s → ∀ bpm : ℚ,
      subdivision_duration_ms_checked bpm s = some (subdivision_duration_ms bpm s)) ∧
    (∀ s : ℕ, 1 ≤ s → ∀ st : ℕ × ℕ,
      stepCountersChecked s st = some (stepCounters s st)) := by
  refine ⟨fun cfg => rfl, fun f v => rfl, fun bpm => rfl, fun st => rfl, ?_, ?_⟩
  · intro s hs bpm
    have h : s ≠ 0 := by omega
    simp [subdivision_duration_ms_checked, checkedDiv, h, subdivision_duration_ms]
  · intro s hs st
    have h : s ≠ 0 := by omega
    simp [stepCountersChecked, checkedMod, h, stepCounters]

/-- Witness for C10 at `subdivisions = 2`. -/
theorem C10_witness :
    stepCountersChecked 2 (0, 0) = some (stepCounters 2 (0, 0)) :=
  C10_subdivisions_zero_panics.2.2.2.2.2 2 (by decide) (0, 0)

/-- C3: for `tempo_bpm = t > 0` and `subdivisions = s ≥ 1`, the nominal tick
period is `60000 / t` truncated, then integer-divided by `s`; the sleep
after a tone of duration `d` is `max(0, tick_period_ms - d)`; and `t = 120,
s = 1` gives 500 ms while `t = 90, s = 3` gives 222 ms. -/
theorem C3_pacing (t : ℚ) (s d : ℕ) (ht : 0 < t) (hs : 1 ≤ s) :
    beat_duration_ms t = (⌊(60000 : ℚ) / t⌋).toNat ∧
    subdivision_duration_ms t s = (⌊(60000 : ℚ) / t⌋).toNat / s ∧
    ((sleep_duration (subdivision_duration_ms t s) d : ℤ)
      = max 0 ((subdivision_duration_ms t s : ℤ) - (d : ℤ))) ∧
    subdivision_duration_ms 120 1 = 500 ∧
    subdivision_duration_ms 90 3 = 222 := by
  have key : (60 : ℚ) / t * 1000 = 60000 / t := by ring
  refine ⟨?_, ?_, ?_, ?_, ?_⟩
  · rw [beat_duration_ms, key]
  · rw [subdivision_duration_ms, beat_duration_ms, key]
  · rw [sleep_duration]
    omega
  · rw [subdivision_duration_ms, beat_duration_ms]
    have h : ((60 : ℚ) / 120 * 1000) = 500 := by norm_num
    rw [h]
    have h2 : ⌊(500 : ℚ)⌋ = 500 := by
      rw [Int.floor_eq_iff]
      norm_num
    rw [h2]
    rfl
  · rw [subdivision_duration_ms, beat_duration_ms]
    have h : ((60 : ℚ) / 90 * 1000) = 2000 / 3 := by norm_num
    rw [h]
    have h2 : ⌊(2000 / 3 : ℚ)⌋ = 666 := by
      rw [Int.floor_eq_iff]
      norm_num
    rw [h2]
    rfl

/-- Witness for C3 at `t = 90`, `s = 3`. -/
theorem C3_witness : subdivision_duration_ms 90 3 = 222 :=
  (C3_pacing 90 3 0 (by norm_num) (by norm_num)).2.2.2.2

/-- C5: `stop(m)` clears `m`'s running flag, clears the registry exactly
when the registry's holder has the same identity value as `m` (identity,
not reference, comparison), and otherwise leaves the registry unchanged;
flags of other identities are untouched. -/
theorem C5_stop (m : MetronomeHandle) (s : GlobalState) :
    (Metronome.stop m s).running m.id = false ∧
    (∀ current, s.registry = some current → current.id = m.id →
      (Metronome.stop m s).registry = none) ∧
    (∀ current, s.registry = some current → current.id ≠ m.id →
      (Metronome.stop m s).registry = s.registry) ∧
    (s.registry = none → (Metronome.stop m s).registry = s.registry) ∧
    (∀ i, i ≠ m.id → (Metronome.stop m s).running i = s.running i) := by
  refine ⟨?_, ?_, ?_, ?_, ?_⟩
  · rw [stop_running]
    simp
  · intro current hreg hid
    rw [stop_registry, hreg]
    simp [hid]
  · intro current hreg hid
    rw [stop_registry, hreg]
    simp [hid]
  · intro hreg
    rw [stop_registry, hreg]
  · intro i hi
    rw [stop_running]
    simp [hi]

/-- Witness for C5: stopping via a clone (handle tag 1) of the registered
metronome (handle tag 0, same identity 3) clears flag and registry. -/
theorem C5_witness :
    (Metronome.stop ⟨3, 1⟩ regThree).running 3 = false ∧
    (Metronome.stop ⟨3, 1⟩ regThree).registry = none :=
  ⟨(C5_stop ⟨3, 1⟩ regThree).1,
   (C5_stop ⟨3, 1⟩ regThree).2.1 ⟨3, 0⟩ rfl rfl⟩

/-- C8: `stop_global_metronome()` clears the registry and the taken
holder's running flag, is a no-op on an empty registry, leaves unrelated
flags unchanged, and is idempotent. -/
theorem C8_stop_global_metronome (s : GlobalState) :
    (stop_global_metronome s).registry = none ∧
    (∀ m, s.registry = some m → (stop_global_metronome s).running m.id = false) ∧
    (∀ i, (∀ m, s.registry = some m → m.id ≠ i) →
      (stop_global_metronome s).running i = s.running i) ∧
    (s.registry = none → stop_global_metronome s = s) ∧
    stop_global_metronome (stop_global_metronome s) = stop_global_metronome s := by
  refine ⟨stop_global_registry s, ?_, ?_, ?_, ?_⟩
  · intro m hreg
    rw [stop_global_running, hreg]
    simp
  · intro i hi
    rw [stop_global_running]
    rcases hreg : s.registry with _ | m
    · rfl
    · simp [Ne.symm (hi m hreg)]
  · intro hreg
    exact stop_global_of_none s hreg
  · exact stop_global_of_none _ (stop_global_registry s)

/-- Witness for C8: the registered identity 4 has its flag cleared. -/
theorem C8_witness : (stop_global_metronome regFour).running 4 = false :=
  (C8_stop_global_metronome regFour).2.1 ⟨4, 0⟩ rfl

/-- C1: the tick's sound is chosen by precedence — Accent exactly when
`beats_per_measure` is set, `beat_index mod b = 0` and
`subdivision_index = 0` (accent tuple, volume 1); otherwise Regular exactly
when `subdivision_index = 0` (regular tuple, volume 1); otherwise, when
`subdivisions > 1`, a Subdivision click (subdivision tuple,
`subdivision_volume`); with `beats_per_measure = None` no tick is ever
Accent. Preconditions: `subdivisions ≥ 1` (claim) and a positive
`beats_per_measure` when set (data model; `beat_count % 0` would panic in
the source). -/
theorem C1_tick_decision (cfg : AccentConfig) (beats_per_measure : Option ℕ)
    (beat_count subdivision_count : ℕ)
    (hs : 1 ≤ cfg.subdivisions)
    (hb : ∀ b, beats_per_measure = some b → 0 < b) :
    (tickKind cfg beats_per_measure beat_count subdivision_count = .accent ↔
      ∃ b, beats_per_measure = some b ∧ beat_count % b = 0 ∧ subdivision_count = 0) ∧
    (tickKind cfg beats_per_measure beat_count subdivision_count = .regular ↔
      subdivision_count = 0 ∧
        ¬∃ b, beats_per_measure = some b ∧ beat_count % b = 0) ∧
    (tickKind cfg beats_per_measure beat_count subdivision_count = .subdivision ↔
      subdivision_count ≠ 0 ∧ 1 < cfg.subdivisions) ∧
    (tickKind cfg beats_per_measure beat_count subdivision_count = .accent →
      tickSound cfg beats_per_measure beat_count subdivision_count =
        some (cfg.accent_frequency, cfg.accent_duration, cfg.accent_wave_type, 1)) ∧
    (tickKind cfg beats_per_measure beat_count subdivision_count = .regular →
      tickSound cfg beats_per_measure beat_count subdivision_count =
        some (cfg.regular_frequency, cfg.regular_duration, cfg.regular_wave_type, 1)) ∧
    (tickKind cfg beats_per_measure beat_count subdivision_count = .subdivision →
      tickSound cfg beats_per_measure beat_count subdivision_count =
        some (cfg.subdivision_frequency, cfg.subdivision_duration,
          cfg.subdivision_wave_type, cfg.subdivision_volume)) ∧
    (beats_per_measure = none →
      tickKind cfg beats_per_measure beat_count subdivision_count ≠ .accent) := by
  have hcases := tickKind_cases cfg beats_per_measure beat_count subdivision_count
  refine ⟨?_, ?_, ?_, ?_, ?_, ?_, ?_⟩
  · exact hcases.1.trans (is_accent_iff beats_per_measure beat_count subdivision_count)
  · rw [hcases.2.1]
    constructor
    · rintro ⟨hfalse, hsd⟩
      refine ⟨hsd, ?_⟩
      rintro ⟨b, hbm, hmod⟩
      have : is_accent beats_per_measure beat_count subdivision_count = true :=
        (is_accent_iff _ _ _).mpr ⟨b, hbm, hmod, hsd⟩
      rw [this] at hfalse
      exact absurd hfalse (by decide)
    · rintro ⟨hsd, hne⟩
      refine ⟨?_, hsd⟩
      rcases hia : is_accent beats_per_measure beat_count subdivision_count with _ | _
      · rfl
      · obtain ⟨b, hbm, hmod, _⟩ := (is_accent_iff _ _ _).mp hia
        exact absurd ⟨b, hbm, hmod⟩ hne
  · rw [hcases.2.2]
    constructor
    · rintro ⟨_, hsd, hlt⟩
      exact ⟨hsd, hlt⟩
    · rintro ⟨hsd, hlt⟩
      exact ⟨is_accent_eq_false_of_ne _ _ _ hsd, hsd, hlt⟩
  · intro h
    rw [tickSound_eq_of_kind, h]
  · intro h
    rw [tickSound_eq_of_kind, h]
  · intro h
    rw [tickSound_eq_of_kind, h]
  · intro h hk
    subst h
    have := hcases.1.mp hk
    simp [is_accent] at this

/-- Witness for C1 at the default config, `beats_per_measure = 4`, tick
`(0, 0)`: an accent with the accent tuple. -/
theorem C1_witness :
    tickKind AccentConfig.default (some 4) 0 0 = TickKind.accent ∧
    tickSound AccentConfig.default (some 4) 0 0
      = some (880, 150, WaveType.sine, 1) := by
  have h := C1_tick_decision AccentConfig.default (some 4) 0 0 (by decide)
    (fun b hbeq => by injection hbeq with hbeq; omega)
  have hacc : tickKind AccentConfig.default (some 4) 0 0 = TickKind.accent :=
    h.1.mpr ⟨4, rfl, by decide, rfl⟩
  exact ⟨hacc, h.2.2.2.1 hacc⟩

/-- C2: after every tick the subdivision index becomes
`(subdivision_index + 1) mod subdivisions` and the beat index increments
exactly when it wrapped to 0; from `(0, 0)` with `beats_per_measure = 3`
and `subdivisions = 2` the classifications are periodic with period 6:
Accent, Subdivision, Regular, Subdivision, Regular, Subdivision, then
Accent again. -/
theorem C2_counter_update_and_period (cfg : AccentConfig) (hs : cfg.subdivisions = 2) :
    (∀ (subs : ℕ) (st : ℕ × ℕ),
      (stepCounters subs st).2 = (st.2 + 1) % subs ∧
      (stepCounters subs st).1 =
        if (stepCounters subs st).2 = 0 then st.1 + 1 else st.1) ∧
    (∀ n, kindTrace cfg (some 3) (n + 6) = kindTrace cfg (some 3) n) ∧
    kindTrace cfg (some 3) 0 = .accent ∧
    kindTrace cfg (some 3) 1 = .subdivision ∧
    kindTrace cfg (some 3) 2 = .regular ∧
    kindTrace cfg (some 3) 3 = .subdivision ∧
    kindTrace cfg (some 3) 4 = .regular ∧
    kindTrace cfg (some 3) 5 = .subdivision ∧
    kindTrace cfg (some 3) 6 = .accent := by
  refine ⟨fun subs st => ⟨rfl, rfl⟩, ?_, ?_, ?_, ?_, ?_, ?_, ?_, ?_⟩
  · intro n
    rw [kindTrace_formula cfg hs, kindTrace_formula cfg hs]
    have h1 : (n + 6) % 2 = n % 2 := by omega
    have h2 : (n + 6) / 2 % 3 = n / 2 % 3 := by omega
    rw [h1, h2]
  all_goals rw [kindTrace_formula cfg hs]
  all_goals decide

/-- Witness for C2 at the eighth-notes preset: tick 6 is again an accent. -/
theorem C2_witness :
    kindTrace AccentConfig.with_eighth_notes (some 3) 6 = TickKind.accent :=
  (C2_counter_update_and_period AccentConfig.with_eighth_notes rfl).2.2.2.2.2.2.2.2

/-- C4 counterexample: with the metronome of identity 5 already registered
(handle tag 0), calling `start` on a clone of it (same identity 5, handle
tag 1) leaves the previously registered metronome's running flag `true`,
because the final `store(true)` hits the same shared flag — so "every
previously registered metronome's running flag reads false" fails. -/
theorem C4_counterexample :
    regFive.registry = some ⟨5, 0⟩ ∧
    ¬((Metronome.start ⟨5, 1⟩ regFive).running 5 = false) := by
  constructor
  · rfl
  · decide

/-- C4 (amended): after `start(m)` the registry holds `m`, `m`'s flag reads
true, every previously registered metronome whose identity differs from
`m`'s reads false, and flags of identities neither started nor previously
registered are unchanged. -/
theorem C4_start_post (m : MetronomeHandle) (s : GlobalState) :
    (Metronome.start m s).registry = some m ∧
    (Metronome.start m s).running m.id = true ∧
    (∀ p, s.registry = some p → p.id ≠ m.id →
      (Metronome.start m s).running p.id = false) ∧
    (∀ i, i ≠ m.id → (∀ p, s.registry = some p → p.id ≠ i) →
      (Metronome.start m s).running i = s.running i) := by
  refine ⟨start_registry m s, ?_, ?_, ?_⟩
  · rw [start_running]
    simp
  · intro p hreg hp
    rw [start_running, hreg]
    simp [hp]
  · intro i hi hother
    rw [start_running]
    rcases hreg : s.registry with _ | p
    · simp [hi]
    · simp [hi, Ne.symm (hother p hreg)]

/-- Witness for C4: starting identity 2 while identity 1 is registered
clears identity 1's flag. -/
theorem C4_witness : (Metronome.start ⟨2, 0⟩ regOne).running 1 = false :=
  (C4_start_post ⟨2, 0⟩ regOne).2.2.1 ⟨1, 0⟩ rfl (by decide)

/-- C6 counterexample: at the default config with `beats_per_measure = 4`,
a render error on the very first tick makes the loop exit with reason
`renderError`, and the running flag still reads `true` afterwards — the
loop's exit does not clear the flag, so `is_playing` does not become
false. -/
theorem C6_counterexample :
    runLoop AccentConfig.default (some 4) [false] ⟨true, (0, 0)⟩
      = (⟨true, (0, 0)⟩, .renderError) ∧
    ¬((runLoop AccentConfig.default (some 4) [false] ⟨true, (0, 0)⟩).1.running = false) := by
  constructor
  · decide
  · decide

/-- C6 (amended): a render failure terminates the loop immediately without
retrying (the remaining oracle is never consulted), and the loop never
writes the running flag — after the error exit the flag still holds its
previous value, so `is_playing` keeps returning true; the registry is not
touched by the loop. -/
theorem C6_render_error_behaviour (cfg : AccentConfig) (beats_per_measure : Option ℕ) :
    (∀ (l : List Bool) (ms : MachineState),
      ((runLoop cfg beats_per_measure l ms).1).running = ms.running) ∧
    (∀ (rest : List Bool) (ms : MachineState), ms.running = true →
      (tickSound cfg beats_per_measure ms.counters.1 ms.counters.2).isSome = true →
      runLoop cfg beats_per_measure (false :: rest) ms = (ms, .renderError)) := by
  constructor
  · intro l
    induction l with
    | nil =>
      intro ms
      unfold runLoop
      split <;> rfl
    | cons ok rest ih =>
      intro ms
      unfold runLoop
      split
      · rfl
      · split
        · exact ih _
        · split
          · exact ih _
          · rfl
  · intro rest ms hrun htick
    unfold runLoop
    rw [hrun]
    rw [if_neg (by decide : ¬((true : Bool) = false))]
    obtain ⟨snd, hsnd⟩ := Option.isSome_iff_exists.mp htick
    rw [hsnd]
    rfl

/-- Witness for C6: at the eighth-notes preset, a render error on a
subdivision tick returns immediately with the state unchanged. -/
theorem C6_witness :
    runLoop AccentConfig.with_eighth_notes (some 3) [false, true] ⟨true, (0, 1)⟩
      = (⟨true, (0, 1)⟩, ExitReason.renderError) :=
  (C6_render_error_behaviour AccentConfig.with_eighth_notes (some 3)).2 [true]
    ⟨true, (0, 1)⟩ rfl (by decide)

/-- C7: from `(0, 0)`, every reachable counter state satisfies
`subdivision_index < subdivisions` (for `subdivisions ≥ 1`); with
`subdivisions = 1` the subdivision index is always 0, so the silent-tick
branch is never taken. -/
theorem C7_subdivision_invariant (cfg : AccentConfig) (beats_per_measure : Option ℕ)
    (hs : 1 ≤ cfg.subdivisions) (n : ℕ) :
    (loopState cfg.subdivisions n).2 < cfg.subdivisions ∧
    (cfg.subdivisions = 1 →
      (loopState cfg.subdivisions n).2 = 0 ∧
      kindTrace cfg beats_per_measure n ≠ .silent) := by
  have hinv : ∀ m, (loopState cfg.subdivisions m).2 < cfg.subdivisions := by
    intro m
    induction m with
    | zero => exact hs
    | succ k ih =>
      rw [loopState_succ]
      exact Nat.mod_lt _ (by omega)
  refine ⟨hinv n, fun h1 => ?_⟩
  have hsd : (loopState cfg.subdivisions n).2 = 0 := by
    have h := hinv n
    omega
  refine ⟨hsd, ?_⟩
  intro hk
  unfold kindTrace at hk
  rw [hsd] at hk
  unfold tickKind at hk
  by_cases hacc : is_accent beats_per_measure (loopState cfg.subdivisions n).1 0 = true
  · rw [if_pos hacc] at hk
    exact absurd hk (by decide)
  · rw [if_neg hacc] at hk
    rw [if_pos (by decide : is_main_beat 0 = true)] at hk
    exact absurd hk (by decide)

/-- Witness for C7 at the default config (one subdivision), tick 5. -/
theorem C7_witness :
    (loopState AccentConfig.default.subdivisions 5).2 < AccentConfig.default.subdivisions ∧
    kindTrace AccentConfig.default (some 4) 5 ≠ TickKind.silent := by
  have h := C7_subdivision_invariant AccentConfig.default (some 4) (by decide) 5
  exact ⟨h.1, (h.2 rfl).2⟩

end MetronomeRs
